import Mathlib

/-!
Verification development for the Whatsapp-rag-bot repository.

The definitions below are a shallow embedding of the two modules the
claims concern:

* scripts/convert_export.py — the WhatsApp export → trigger/reply pair
  pipeline (header matching, noise filter, consecutive-message merger,
  pair extractor);
* server/main.py — the runtime request path (retrieval with global
  fallback, history fetch, prompt builder, LLM post-processing, and the
  POST /reply handler).

Strings are modelled as Lean String values (lists of Unicode code
points).  Python str.strip, str.lower and the regex character classes
\s and \d are modelled on their ASCII behaviour, which is what every
pattern in the source exercises.  External services (the Supabase RPC,
the history table, the Groq chat completion) are modelled as function
parameters returning Except values: an error value stands for a raised
exception in the Python client.  Input lines given to the parser are
the lines of the export file, hence contain no newline characters.
-/

/-! ## Python-style character and string helpers -/

/-- ASCII whitespace, the characters the source regexes and str.strip
touch in practice. -/
def isPySpace (c : Char) : Bool :=
  c = ' ' || c = '\t' || c = '\n' || c = '\x0b' || c = '\x0c' || c = '\r'

/-- ASCII digit test, modelling the regex class \d. -/
def isPyDigit (c : Char) : Bool :=
  '0' ≤ c && c ≤ '9'

/-- Model of Python str.strip at the character-list level. -/
def stripChars (cs : List Char) : List Char :=
  ((cs.dropWhile isPySpace).reverse.dropWhile isPySpace).reverse

/-- Model of Python str.strip. -/
def pyStrip (s : String) : String :=
  ⟨stripChars s.data⟩

/-- Model of Python str.lower restricted to ASCII letters. -/
def pyLower (s : String) : String :=
  ⟨s.data.map Char.toLower⟩

/-- Model of line.replace for the two direction-mark control
characters U+200E and U+200F that the source strips. -/
def removeMarks (s : String) : String :=
  ⟨s.data.filter (fun c => c ≠ '‎' && c ≠ '‏')⟩

/-- Substring containment on character lists, modelling the Python
expression pat in hay for non-empty pat. -/
def containsSub : List Char → List Char → Bool
  | [], pat => pat.isEmpty
  | c :: t, pat => pat.isPrefixOf (c :: t) || containsSub t pat

/-! ## scripts/convert_export.py — skip patterns and the noise filter -/

/-- SKIP_PATTERNS from convert_export.py. -/
def SKIP_PATTERNS : List String :=
  ["image omitted",
   "video omitted",
   "audio omitted",
   "sticker omitted",
   "document omitted",
   "Contact card omitted",
   "GIF omitted",
   "Messages and calls are end-to-end encrypted",
   "This message was deleted",
   "You deleted this message",
   "missed voice call",
   "missed video call",
   "<This message was edited>",
   "location:",
   "https://maps.google.com"]

/-- SYSTEM_PATTERNS from convert_export.py. -/
def SYSTEM_PATTERNS : List String :=
  ["Video call",
   "Voice call",
   "Missed voice call",
   "Missed video call",
   "changed the subject",
   "changed this group",
   "added you",
   "removed you",
   "left the group",
   "created group",
   "changed the group",
   "security code changed"]

/-- is_skip_message from convert_export.py: a message is skipped when
its lowercased stripped text contains one of the fixed patterns, or
when its mark-stripped trimmed text is one of a few trivial strings. -/
def is_skip_message (text : String) : Bool :=
  let text_lower := pyStrip (pyLower text)
  let text_clean := pyStrip (removeMarks text)
  SKIP_PATTERNS.any (fun p => containsSub text_lower.data (pyLower p).data) ||
  SYSTEM_PATTERNS.any (fun p => containsSub text_lower.data (pyLower p).data) ||
  [".", "..", "...", "‎", ""].contains text_clean

/-! ## scripts/convert_export.py — message record and merger -/

/-- One parsed message, the dict built by parse_whatsapp_export. -/
structure RawMessage where
  sender : String
  message : String
  date : String
  time : String
  is_you : Bool
deriving DecidableEq

/-- Loop body of merge_consecutive_messages: fold the remaining
messages into the open block, starting a new block on a sender
change. -/
def mergeAux (current : RawMessage) : List RawMessage → List RawMessage
  | [] => [current]
  | msg :: rest =>
    if msg.sender == current.sender then
      mergeAux { current with message := current.message ++ "\n" ++ msg.message } rest
    else
      current :: mergeAux msg rest

/-- merge_consecutive_messages from convert_export.py. -/
def merge_consecutive_messages : List RawMessage → List RawMessage
  | [] => []
  | m :: rest => mergeAux m rest

/-! ## scripts/convert_export.py — the MESSAGE_PATTERN header matcher

The source matches each line against the regex

  caret BRACKET? (ddate) COMMA? WS+ (ttime) BRACKET? WS+ (sender):WS(text) dollar

with ddate = one or two digits / one or two digits / two to four
digits, ttime = one or two digits : two digits, optional : two digits,
optional WS* meridiem, sender matched lazily, text greedily to the end
of the line.  Every quantifier here is deterministic against its
follower except two: the optional meridiem group, which the matcher
below handles with an explicit second attempt, and the mandatory
whitespace before the sender, whose greedy WS+ yields characters back
to the lazy sender group (the sender can match whitespace), handled
by trying every split of the whitespace run from longest consumed to
shortest — exactly the order a backtracking engine explores. -/

/-- Take up to n leading digits greedily, returning them and the rest. -/
def takeDigitsUpTo : Nat → List Char → List Char × List Char
  | 0, cs => ([], cs)
  | _ + 1, [] => ([], [])
  | n + 1, c :: cs =>
    if isPyDigit c then
      let (d, r) := takeDigitsUpTo n cs
      (c :: d, r)
    else ([], c :: cs)

/-- Take exactly n leading digits, or fail. -/
def takeExactDigits : Nat → List Char → Option (List Char × List Char)
  | 0, cs => some ([], cs)
  | _ + 1, [] => none
  | n + 1, c :: cs =>
    if isPyDigit c then
      (takeExactDigits n cs).map (fun dr => (c :: dr.1, dr.2))
    else none

/-- Require a given character at the head of the list. -/
def expectChar (c : Char) : List Char → Option (List Char)
  | x :: xs => if x = c then some xs else none
  | [] => none

/-- Match the date group: one or two digits, slash, one or two digits,
slash, two to four digits.  Returns the captured characters and the
rest of the line. -/
def parseDate (cs : List Char) : Option (List Char × List Char) :=
  let (d1, r1) := takeDigitsUpTo 2 cs
  if d1.isEmpty then none else
  match expectChar '/' r1 with
  | none => none
  | some r2 =>
    let (d2, r3) := takeDigitsUpTo 2 r2
    if d2.isEmpty then none else
    match expectChar '/' r3 with
    | none => none
    | some r4 =>
      let (d3, r5) := takeDigitsUpTo 4 r4
      if d3.length < 2 then none else
      some (d1 ++ '/' :: d2 ++ '/' :: d3, r5)

/-- Match the mandatory part of the time group: one or two digits,
colon, two digits, then an optional colon plus two digits. -/
def parseTimeCore (cs : List Char) : Option (List Char × List Char) :=
  let (h, r1) := takeDigitsUpTo 2 cs
  if h.isEmpty then none else
  match expectChar ':' r1 with
  | none => none
  | some r2 =>
    match takeExactDigits 2 r2 with
    | none => none
    | some (mm, r3) =>
      match r3 with
      | ':' :: rest =>
        match takeExactDigits 2 rest with
        | some (ss, r4) => some (h ++ ':' :: mm ++ ':' :: ss, r4)
        | none => some (h ++ ':' :: mm, r3)
      | _ => some (h ++ ':' :: mm, r3)

/-- Try the optional meridiem group: any whitespace, one of A P a p,
one of M m.  Returns the consumed characters (part of the time
capture) and the rest. -/
def tryMeridiem (cs : List Char) : Option (List Char × List Char) :=
  let ws := cs.takeWhile isPySpace
  match cs.drop ws.length with
  | a :: m :: rest =>
    if (a = 'A' || a = 'P' || a = 'a' || a = 'p') && (m = 'M' || m = 'm') then
      some (ws ++ [a, m], rest)
    else none
  | _ => none

/-- Lazy sender/text split: find the leftmost position, with a
non-empty sender on its left, holding a colon followed by one
whitespace character followed by a non-empty remainder.  The sender
accumulator is kept reversed. -/
def splitAux (sender : List Char) : List Char → Option (List Char × List Char)
  | ':' :: w :: t :: ts =>
    if !sender.isEmpty && isPySpace w then
      some (sender.reverse, t :: ts)
    else
      splitAux (':' :: sender) (w :: t :: ts)
  | c :: cs => splitAux (c :: sender) cs
  | [] => none

/-- Backtracking of the mandatory whitespace before the sender: the
greedy WS+ first consumes the whole leading whitespace run, and on
failure of the rest of the pattern gives characters back one at a
time to the lazy sender group, which can absorb whitespace.  Try the
sender/text split after consuming k characters, for k from the run
length down to one. -/
def trySenderSplits : Nat → List Char → Option (List Char × List Char)
  | 0, _ => none
  | k + 1, cs =>
    match splitAux [] (cs.drop (k + 1)) with
    | some st => some st
    | none => trySenderSplits k cs

/-- Match the tail of the pattern after the time capture: an optional
closing bracket, mandatory whitespace (with its backtracking into the
sender group), then the sender/text split. -/
def afterTime (cs : List Char) : Option (List Char × List Char) :=
  let cs := match cs with
    | ']' :: r => r
    | r => r
  trySenderSplits (cs.takeWhile isPySpace).length cs

/-- MESSAGE_PATTERN.match from convert_export.py: returns the four raw
capture groups (date, time, sender, text) when the line is a message
header, and none otherwise. -/
def matchHeader (line : String) : Option (String × String × String × String) :=
  let cs := match line.data with
    | '[' :: r => r
    | r => r
  match parseDate cs with
  | none => none
  | some (dateChars, r1) =>
    let r1 := match r1 with
      | ',' :: r => r
      | r => r
    let ws := r1.takeWhile isPySpace
    if ws.isEmpty then none else
    let r2 := r1.drop ws.length
    match parseTimeCore r2 with
    | none => none
    | some (timeChars, r3) =>
      let withM : Option (List Char × (List Char × List Char)) :=
        match tryMeridiem r3 with
        | some (mChars, r4) =>
          match afterTime r4 with
          | some st => some (timeChars ++ mChars, st)
          | none => none
        | none => none
      let result := match withM with
        | some x => some x
        | none =>
          match afterTime r3 with
          | some st => some (timeChars, st)
          | none => none
      match result with
      | none => none
      | some (t, sender, text) => some (⟨dateChars⟩, ⟨t⟩, ⟨sender⟩, ⟨text⟩)

/-! ## scripts/convert_export.py — edited-tag removal

The source applies re.sub to delete every occurrence of optional
whitespace followed by the literal edited tag (the optional direction
mark in the pattern can never occur, the marks having been removed
from the whole line already). -/

/-- Literal tag the re.sub pattern deletes. -/
def editedTag : List Char := "<This message was edited>".data

/-- Split at the leftmost occurrence of the edited tag: the characters
before it, and the characters after it when it occurs. -/
def splitOnTag : List Char → List Char × Option (List Char)
  | [] => ([], none)
  | c :: cs =>
    if editedTag.isPrefixOf (c :: cs) then
      ([], some ((c :: cs).drop editedTag.length))
    else
      let (p, r) := splitOnTag cs
      (c :: p, r)

/-- Drop trailing whitespace from a character list. -/
def rstripChars (cs : List Char) : List Char :=
  (cs.reverse.dropWhile isPySpace).reverse

/-- Model of the re.sub call: delete every occurrence of whitespace
followed by the edited tag, scanning left to right.  The fuel
argument makes the recursion structural; each recursive call follows
the removal of the non-empty tag, so the remainder is strictly
shorter than the input and fuel equal to the input length is never
exhausted. -/
def removeEditedFuel : Nat → List Char → List Char
  | 0, cs => cs
  | fuel + 1, cs =>
    match splitOnTag cs with
    | (p, none) => p
    | (p, some rest) => rstripChars p ++ removeEditedFuel fuel rest

/-- Edited-tag removal on a character list. -/
def removeEditedAux (cs : List Char) : List Char :=
  removeEditedFuel cs.length cs

/-- Edited-tag removal on strings. -/
def removeEdited (s : String) : String :=
  ⟨removeEditedAux s.data⟩

/-! ## scripts/convert_export.py — parse_whatsapp_export -/

/-- Parser state: the completed messages and the open one, mirroring
the messages list and current_message variable of the source. -/
structure ParseState where
  messages : List RawMessage
  current : Option RawMessage
deriving DecidableEq

/-- Append the open message, when there is one, to the completed
list. -/
def flushCurrent (st : ParseState) : List RawMessage :=
  match st.current with
  | some cur => st.messages ++ [cur]
  | none => st.messages

/-- Loop body of parse_whatsapp_export for a single input line. -/
def processLine (your_name : String) (st : ParseState) (rawLine : String) : ParseState :=
  let line := pyStrip rawLine
  if line = "" then st
  else
    let line := removeMarks line
    match matchHeader line with
    | some (date_str, time_str, sender0, text0) =>
      let sender := pyStrip sender0
      let text := pyStrip (removeEdited (pyStrip text0))
      { messages := flushCurrent st,
        current := some
          { sender := sender, message := text, date := date_str,
            time := time_str, is_you := sender == your_name } }
    | none =>
      match st.current with
      | some cur =>
        { st with current := some { cur with message := cur.message ++ "\n" ++ line } }
      | none => st

/-- parse_whatsapp_export from convert_export.py, over the list of
lines of the export file. -/
def parse_whatsapp_export (lines : List String) (your_name : String) : List RawMessage :=
  flushCurrent (lines.foldl (processLine your_name) ⟨[], none⟩)

/-! ## scripts/convert_export.py — pair extraction -/

/-- One trigger/reply pair, the dict produced by
create_trigger_reply_pairs. -/
structure TriggerReplyPair where
  trigger : String
  reply : String
  timestamp : String
deriving DecidableEq

/-- create_trigger_reply_pairs from convert_export.py: walk the
adjacent pairs of the merged blocks, emitting a pair at every
non-owner block immediately followed by an owner block, unless a side
is skip-worthy or the stripped reply is shorter than two characters. -/
def create_trigger_reply_pairs : List RawMessage → List TriggerReplyPair
  | current :: next_msg :: rest =>
    (if !current.is_you && next_msg.is_you then
      let trigger := pyStrip current.message
      let reply := pyStrip next_msg.message
      if is_skip_message trigger || is_skip_message reply then []
      else if (pyStrip reply).length < 2 then []
      else [{ trigger := trigger, reply := reply,
              timestamp := current.date ++ " " ++ current.time }]
    else []) ++ create_trigger_reply_pairs (next_msg :: rest)
  | _ => []

/-- Candidate formation for one adjacent pair of merged blocks, as
the (amended) C4 describes pair extraction: a candidate exists exactly
when the first block is non-owner and the second owner, and survives
unless a side is noise or the trimmed reply is shorter than two
characters; its trigger and reply are the trimmed block texts and its
timestamp joins the date and time of the first block. -/
def mkCandidate (current next_msg : RawMessage) : Option TriggerReplyPair :=
  if !current.is_you && next_msg.is_you then
    if is_skip_message (pyStrip current.message) || is_skip_message (pyStrip next_msg.message) then
      none
    else if (pyStrip (pyStrip next_msg.message)).length < 2 then
      none
    else
      some { trigger := pyStrip current.message, reply := pyStrip next_msg.message,
             timestamp := current.date ++ " " ++ current.time }
  else none

/-- Maximal leading block of messages carrying the given sender, and
the remaining messages; used to state what the merger does. -/
def takeRun (s : String) : List RawMessage → List RawMessage × List RawMessage
  | [] => ([], [])
  | m :: ms =>
    if m.sender == s then
      (m :: (takeRun s ms).1, (takeRun s ms).2)
    else ([], m :: ms)

/-- Extend the text of a message by further texts, newline-joined,
leaving every other field unchanged; used to state what the merger
does to the first message of a run. -/
def appendTexts (m : RawMessage) (ts : List String) : RawMessage :=
  { m with message := ts.foldl (fun acc t => acc ++ "\n" ++ t) m.message }

/-- Step 2 of convert_chat: keep the raw messages whose text is not
skip-worthy. -/
def filterMessages (raw : List RawMessage) : List RawMessage :=
  raw.filter (fun m => !is_skip_message m.message)

/-- convert_chat from convert_export.py: parse, filter, merge, pair. -/
def convert_chat (lines : List String) (your_name : String) : List TriggerReplyPair :=
  create_trigger_reply_pairs
    (merge_consecutive_messages (filterMessages (parse_whatsapp_export lines your_name)))

/-! ## server/main.py — retrieval and history

The Supabase RPC and the history table query are external calls; they
are modelled as function parameters returning Except values, an error
standing for an exception raised by the client library.  The embedding
model is likewise a parameter with an abstract result type, its output
being forwarded to the similarity RPC unexamined. -/

/-- One retrieval result row, as returned by the match_chat_embeddings
RPC and consumed by build_prompt. -/
structure StyleExample where
  trigger_text : String
  reply_text : String
deriving DecidableEq

/-- search_style_examples from server/main.py: similarity query scoped
to the contact, global fallback on an empty result, empty list on any
raised error or when RAG is disabled. -/
def search_style_examples {E : Type} (disable_rag : Bool) (embed_text : String → E)
    (rpc : E → String → Nat → Except String (List StyleExample))
    (contact_id : String) (message : String) (top_k : Nat) : List StyleExample :=
  if disable_rag then []
  else
    let query_embedding := embed_text message
    match rpc query_embedding contact_id top_k with
    | .error _ => []
    | .ok result =>
      if !result.isEmpty then result
      else if contact_id != "global" then
        match rpc query_embedding "global" top_k with
        | .error _ => []
        | .ok result2 => result2
      else []

/-- One conversation_history row (role, message, created_at). -/
structure HistRow where
  role : String
  message : String
  created_at : String
deriving DecidableEq

/-- get_conversation_history from server/main.py: fetch the most
recent rows (the table query returns newest first), reverse them into
chronological order, and swallow any raised error into an empty
list. -/
def get_conversation_history (fetch : String → Nat → Except String (List HistRow))
    (contact_id : String) (limit : Nat) : List HistRow :=
  match fetch contact_id limit with
  | .ok rows => rows.reverse
  | .error _ => []

/-! ## server/main.py — prompt building -/

/-- One role-tagged prompt segment, the dicts that build_prompt
returns. -/
structure PromptMsg where
  role : String
  content : String
deriving DecidableEq

/-- SYSTEM_PROMPT from server/main.py. -/
def SYSTEM_PROMPT : String :=
  "You are acting as the phone\x27s owner. Reply to WhatsApp messages EXACTLY as they would — same tone, vocabulary, slang, length, and energy.\n\nCRITICAL RULES:\n1. You speak in Hinglish (Hindi + English mix) — casual, warm, sometimes sarcastic\n2. Use short replies unless the question genuinely needs detail\n3. Common words you use: arre, hnn, bhai, yaar, toh, kya, hm, ok, ni, meko, terko, yrr, chal, hmm, accha\n4. Use ? for engagement, ! for emphasis, ... for trailing off\n5. NEVER sound like a bot, AI, or assistant — you ARE the person\n6. Match the energy of the incoming message (chill → chill, excited → excited, angry → angry)\n7. Reply ONLY with the message text — no quotes, no \"Reply:\", no explanations\n8. If someone asks something you genuinely don\x27t know, say something like \"pata ni yaar\" or \"baad me batata hu\"\n9. Use emojis sparingly — only when the real person would (😂, 😭, 🥲, 😅 are common)\n10. Sometimes be lazy in replying — single word answers are fine: \"hm\", \"ok\", \"acha\", \"hnn\"\n11. You can use mild slang/abuse with close friends (bhai, bsdk, etc.) — match the relationship tone\n12. NEVER use formal Hindi or Shudh Hindi — always casual/broken Hinglish\n13. AVOID COMMAS — Don\x27t use commas to separate thoughts. Instead:\n    - Use NEW LINES (press enter) to separate ideas\n    - Or just keep replies SHORT AND SINGLE PHRASE\n    - Example GOOD: \"game khel rha hu\" or \"game khel rha hu\nmovies baad me\"\n    - Example BAD: \"game khel rha hu, movies baad me\"\n14. One-word or two-word answers are BEST — show you\x27re lazy texting\n"

/-- Body of the few-shot block: one numbered entry per style example,
in order, numbering starting at the given index. -/
def examples_block : Nat → List StyleExample → String
  | _, [] => ""
  | i, ex :: rest =>
    "Example " ++ toString i ++ ":\n" ++
    "  They said: " ++ ex.trigger_text ++ "\n" ++
    "  You replied: " ++ ex.reply_text ++ "\n\n" ++
    examples_block (i + 1) rest

/-- Full few-shot block built by build_prompt when style examples are
present. -/
def examples_text (style_examples : List StyleExample) : String :=
  "Here are examples of how you\x27ve replied to similar messages before. Match this EXACT style:\n\n" ++
  examples_block 1 style_examples

/-- build_prompt from server/main.py: system persona, optional
few-shot block, one segment per history entry in the given order, then
the new message under the user role. -/
def build_prompt (contact_name : String) (style_examples : List StyleExample)
    (conversation_history : List HistRow) (new_message : String) : List PromptMsg :=
  let messages : List PromptMsg := [{ role := "system", content := SYSTEM_PROMPT }]
  let messages := if style_examples.isEmpty then messages
    else messages ++ [{ role := "system", content := examples_text style_examples }]
  let messages := messages ++
    conversation_history.map (fun msg => { role := msg.role, content := msg.message : PromptMsg })
  messages ++ [{ role := "user", content := new_message }]

/-! ## server/main.py — LLM call post-processing -/

/-- Head-character test, modelling str.startswith for a one-character
argument. -/
def startsWithChar (r : String) (q : Char) : Bool :=
  match r.data with
  | c :: _ => c = q
  | [] => false

/-- Last-character test, modelling str.endswith for a one-character
argument. -/
def endsWithChar (r : String) (q : Char) : Bool :=
  match r.data.getLast? with
  | some c => c = q
  | none => false

/-- Quote stripping step of call_groq: when the text both starts and
ends with the quote character, drop its first and last characters. -/
def stripWrappingQuote (q : Char) (r : String) : String :=
  if startsWithChar r q && endsWithChar r q then ⟨(r.data.drop 1).dropLast⟩ else r

/-- Label prefixes removed by call_groq. -/
def REPLY_LABELS : List String :=
  ["Reply:", "Reply :", "Response:", "Message:"]

/-- Label stripping loop of call_groq: for each label in order, when
the current text starts with it, drop it and re-strip. -/
def stripLabels (r : String) : String :=
  REPLY_LABELS.foldl
    (fun acc p => if p.data.isPrefixOf acc.data then pyStrip ⟨acc.data.drop p.data.length⟩ else acc)
    r

/-- Post-processing section of call_groq (server/main.py lines
320-331): strip the raw completion, strip a wrapping double-quote
pair, then a wrapping single-quote pair, then the label loop. -/
def clean_reply (raw : String) : String :=
  stripLabels (stripWrappingQuote '\x27' (stripWrappingQuote '"' (pyStrip raw)))

/-- call_groq from server/main.py with the chat-completion call
abstracted: on success the cleaned reply, on a raised error an HTTP
500 failure carrying the message, with no retry. -/
def call_groq (llm : List PromptMsg → Except String String)
    (messages : List PromptMsg) : Except String String :=
  match llm messages with
  | .ok content => .ok (clean_reply content)
  | .error e => .error ("LLM error: " ++ e)

/-! ## server/main.py — the POST /reply handler -/

/-- Request body of POST /reply. -/
structure MessageRequest where
  contact_id : String
  contact_name : String
  message : String
deriving DecidableEq

/-- Response body of POST /reply. -/
structure MessageResponse where
  reply : String
  rag_examples_used : Nat
  response_time_ms : Nat
deriving DecidableEq

/-- generate_reply from server/main.py, the POST /reply handler as
written: it computes the elapsed time (a parameter here) and returns a
hardcoded reply with rag_examples_used zero, calling none of
search_style_examples, get_conversation_history, build_prompt or
call_groq. -/
def generate_reply (elapsed_ms : Nat) (request : MessageRequest) : MessageResponse :=
  { reply := "hnn bhai sab badhiya",
    rag_examples_used := 0,
    response_time_ms := elapsed_ms }

/-! ## Helper lemmas -/

/-- The merger loop never returns an empty list, and the head of its
result carries the sender of the open block. -/
theorem mergeAux_head_sender :
    ∀ (rest : List RawMessage) (current : RawMessage),
      ∃ hd tl, mergeAux current rest = hd :: tl ∧ hd.sender = current.sender := by
  intro rest
  induction rest with
  | nil => intro current; exact ⟨current, [], rfl, rfl⟩
  | cons m ms ih =>
    intro current
    cases hs : (m.sender == current.sender) with
    | true =>
      obtain ⟨hd, tl, he, hsend⟩ :=
        ih { current with message := current.message ++ "\n" ++ m.message }
      exact ⟨hd, tl, by simp only [mergeAux, hs, if_true]; exact he, hsend⟩
    | false =>
      refine ⟨current, mergeAux m ms, ?_, rfl⟩
      simp [mergeAux, hs]

/-- The merger loop produces no two adjacent blocks with the same
sender. -/
theorem mergeAux_chain :
    ∀ (rest : List RawMessage) (current : RawMessage),
      List.Chain' (fun a b => a.sender ≠ b.sender) (mergeAux current rest) := by
  intro rest
  induction rest with
  | nil => intro current; simp [mergeAux]
  | cons m ms ih =>
    intro current
    cases hs : (m.sender == current.sender) with
    | true =>
      simpa only [mergeAux, hs, if_true] using
        ih { current with message := current.message ++ "\n" ++ m.message }
    | false =>
      simp only [mergeAux, hs, Bool.false_eq_true, if_false]
      obtain ⟨hd, tl, he, hsend⟩ := mergeAux_head_sender ms m
      rw [he]
      refine List.chain'_cons'.mpr ⟨?_, he ▸ ih m⟩
      intro y hy
      simp only [List.head?_cons, Option.mem_def, Option.some.injEq] at hy
      subst hy
      rw [hsend]
      intro hcontra
      rw [hcontra] at hs
      simp at hs

/-- The merger loop explicitly: the open block absorbs the maximal
leading run of its own sender, newline-joined, and the loop restarts
on the rest. -/
theorem mergeAux_eq_run :
    ∀ (ms : List RawMessage) (current : RawMessage),
      mergeAux current ms =
        appendTexts current ((takeRun current.sender ms).1.map (fun x => x.message)) ::
          merge_consecutive_messages (takeRun current.sender ms).2 := by
  intro ms
  induction ms with
  | nil =>
    intro current
    simp [mergeAux, takeRun, appendTexts, merge_consecutive_messages]
  | cons m ms ih =>
    intro current
    cases hs : (m.sender == current.sender) with
    | true =>
      simp only [mergeAux, hs, if_true, takeRun, List.map_cons]
      rw [ih { current with message := current.message ++ "\n" ++ m.message }]
      rfl
    | false =>
      simp only [mergeAux, hs, Bool.false_eq_true, if_false, takeRun]
      rfl

/-! ## Claim theorems -/

/-- C1: the POST /reply handler as committed does not run the online
pipeline at all.  For every elapsed time and every request it returns
the hardcoded reply with rag_examples_used zero, independent of the
request and of any retrieval, prompt building, LLM call or
post-processing; this theorem documents the divergence between the
handler and its own module documentation. -/
theorem claim_C1 (elapsed_ms : Nat) (request : MessageRequest) :
    generate_reply elapsed_ms request =
      { reply := "hnn bhai sab badhiya", rag_examples_used := 0,
        response_time_ms := elapsed_ms } := rfl

/-- C2: for every input line sequence and owner name, merging the
filtered parsed messages yields no two adjacent blocks with an equal
sender. -/
theorem claim_C2 (lines : List String) (your_name : String) :
    List.Chain' (fun a b => a.sender ≠ b.sender)
      (merge_consecutive_messages (filterMessages (parse_whatsapp_export lines your_name))) := by
  cases h : filterMessages (parse_whatsapp_export lines your_name) with
  | nil => simp [merge_consecutive_messages]
  | cons m ms =>
    simpa only [merge_consecutive_messages] using mergeAux_chain ms m

/-- C10: the merger only concatenates texts.  On a non-empty input the
first output block is the first message with the texts of its maximal
same-sender run appended newline-joined, followed by the merge of the
rest, and appendTexts leaves sender, date, time and is_you unchanged;
hence a block, and so the timestamp of any pair extracted from it,
keeps the date and time of the first message of its run. -/
theorem claim_C10 (m : RawMessage) (ms : List RawMessage) :
    merge_consecutive_messages (m :: ms) =
      appendTexts m ((takeRun m.sender ms).1.map (fun x => x.message)) ::
        merge_consecutive_messages (takeRun m.sender ms).2
    ∧ ∀ (x : RawMessage) (ts : List String),
        (appendTexts x ts).sender = x.sender ∧ (appendTexts x ts).date = x.date ∧
        (appendTexts x ts).time = x.time ∧ (appendTexts x ts).is_you = x.is_you := by
  refine ⟨?_, fun x ts => ⟨rfl, rfl, rfl, rfl⟩⟩
  simpa only [merge_consecutive_messages] using mergeAux_eq_run ms m

/-- C3 counterexample: a string whose cleaned content consists solely
of periods is not classified as noise when there are more than three
of them — the source compares the cleaned text against the fixed list
of one, two or three periods only. -/
theorem claim_C3_counterexample :
    pyStrip (removeMarks ("....")) = "...." ∧ is_skip_message ("....") = false := by
  constructor <;> decide

/-- C3 (amended): is_skip_message returns true for every string whose
cleaned content is empty or consists of one to three periods, for the
stray direction-mark character, and for every string containing one of
the fixed media or system placeholder phrases case-insensitively; it
returns false for a typical substantive sentence. -/
theorem claim_C3 :
    (∀ s : String,
      (pyStrip (removeMarks s) = "" ∨ pyStrip (removeMarks s) = "." ∨
        pyStrip (removeMarks s) = ".." ∨ pyStrip (removeMarks s) = "...") →
      is_skip_message s = true)
    ∧ is_skip_message ("‎") = true
    ∧ (∀ (s p : String), (p ∈ SKIP_PATTERNS ∨ p ∈ SYSTEM_PATTERNS) →
        containsSub (pyStrip (pyLower s)).data (pyLower p).data = true →
        is_skip_message s = true)
    ∧ is_skip_message ("chal kal milte hai bhai") = false := by
  refine ⟨?_, by decide, ?_, by decide⟩
  · intro s h
    rcases h with h | h | h | h <;> simp [is_skip_message, h]
  · intro s p hp hc
    simp only [is_skip_message, Bool.or_eq_true, List.any_eq_true]
    rcases hp with hp | hp
    · exact Or.inl (Or.inl ⟨p, hp, hc⟩)
    · exact Or.inl (Or.inr ⟨p, hp, hc⟩)

/-- C3 witness: the general parts of the amended claim applied at
concrete inputs. -/
theorem claim_C3_witness :
    is_skip_message ("..") = true ∧ is_skip_message ("Image Omitted here") = true :=
  ⟨claim_C3.1 ("..") (by decide),
   claim_C3.2.2.1 ("Image Omitted here") ("image omitted") (Or.inl (by decide)) (by decide)⟩

/-- Pair extraction visits exactly the adjacent pairs of its input and
emits the candidate of each, dropping the rejected ones. -/
theorem pairs_eq_filterMap :
    ∀ msgs : List RawMessage,
      create_trigger_reply_pairs msgs =
        (msgs.zip msgs.tail).filterMap (fun cn => mkCandidate cn.1 cn.2)
  | [] => by simp [create_trigger_reply_pairs]
  | [m] => by simp [create_trigger_reply_pairs]
  | m :: n :: rest => by
    have ih := pairs_eq_filterMap (n :: rest)
    simp only [List.tail_cons] at ih
    simp only [create_trigger_reply_pairs, List.tail_cons, List.zip_cons_cons,
      List.filterMap_cons]
    rw [← ih]
    simp only [mkCandidate]
    rcases Bool.eq_false_or_eq_true (!m.is_you && n.is_you) with h1 | h1
    · by_cases h2 :
        (is_skip_message (pyStrip m.message) = true ∨ is_skip_message (pyStrip n.message) = true)
      · simp [h1, h2]
      · by_cases h3 : (pyStrip (pyStrip n.message)).length < 2
        · simp [h1, h2, h3]
        · simp [h1, h2, h3]
    · simp [h1]

/-- All emitted replies keep at least two characters after a further
strip. -/
theorem pairs_reply_length :
    ∀ (msgs : List RawMessage) (p : TriggerReplyPair),
      p ∈ create_trigger_reply_pairs msgs → 2 ≤ (pyStrip p.reply).length := by
  intro msgs p hp
  rw [pairs_eq_filterMap] at hp
  obtain ⟨cn, -, hsome⟩ := List.mem_filterMap.mp hp
  simp only [mkCandidate] at hsome
  split at hsome
  · split at hsome
    · simp at hsome
    · split at hsome
      · simp at hsome
      · next h3 =>
        have hp2 := Option.some.inj hsome
        rw [← hp2]
        show 2 ≤ (pyStrip (pyStrip cn.2.message)).length
        omega
  · simp at hsome

/-- C4 counterexample: the emitted trigger is the trimmed text of the
non-owner block, not the text itself — on a block whose text carries
surrounding whitespace the claimed pair differs from the emitted
one. -/
theorem claim_C4_counterexample :
    create_trigger_reply_pairs
        [{ sender := "Alice", message := " hi ", date := "1/1/24", time := "10:00", is_you := false },
         { sender := "~", message := "okk", date := "1/1/24", time := "10:01", is_you := true }]
      = [{ trigger := "hi", reply := "okk", timestamp := "1/1/24 10:00" }]
    ∧ ("hi" : String) ≠ " hi " := by
  constructor <;> decide

/-- C4 (amended): pair extraction emits exactly one candidate per
adjacent block pair with a non-owner block followed by an owner block,
the candidate carrying the trimmed texts of the two blocks and the
date and time of the first, rejected exactly when a side is noise or
the trimmed reply is shorter than two characters; consequently every
emitted reply has at least two characters after trimming. -/
theorem claim_C4 (msgs : List RawMessage) :
    create_trigger_reply_pairs msgs =
      (msgs.zip msgs.tail).filterMap (fun cn => mkCandidate cn.1 cn.2)
    ∧ ∀ p ∈ create_trigger_reply_pairs msgs, 2 ≤ (pyStrip p.reply).length :=
  ⟨pairs_eq_filterMap msgs, fun p hp => pairs_reply_length msgs p hp⟩

/-- C4 witness: the amended claim applied at a concrete block list and
a concrete emitted pair. -/
theorem claim_C4_witness :
    2 ≤ (pyStrip (({ trigger := "kya kar rha h",
                     reply := "kuch nhi bas",
                     timestamp := "1/1/24 10:00" } : TriggerReplyPair)).reply).length :=
  (claim_C4
      [{ sender := "Alice", message := "kya kar rha h", date := "1/1/24", time := "10:00",
         is_you := false },
       { sender := "~", message := "kuch nhi bas", date := "1/1/24", time := "10:01",
         is_you := true }]).2
    { trigger := "kya kar rha h", reply := "kuch nhi bas", timestamp := "1/1/24 10:00" }
    (by decide)

/-- C5: the parser step on any non-blank line that does not match the
message-header pattern appends the line to the open message with a
newline separator, and leaves the state untouched — dropping the
line — when no open message exists.  The parser itself is a total
function of its input lines, so no format deviation can raise. -/
theorem claim_C5 (your_name : String) (st : ParseState) (l : String)
    (hnb : pyStrip l ≠ "")
    (hnm : matchHeader (removeMarks (pyStrip l)) = none) :
    processLine your_name st l =
      match st.current with
      | some cur =>
        { st with current := some { cur with message := cur.message ++ "\n" ++ removeMarks (pyStrip l) } }
      | none => st := by
  simp only [processLine]
  rw [if_neg hnb, hnm]

/-- C5 witness: a plain continuation line under an open message, and
the same line dropped when no message is open. -/
theorem claim_C5_witness :
    processLine ("~")
        ⟨[], some { sender := "A", message := "hello", date := "1/1/24", time := "10:00",
                    is_you := false }⟩
        ("just a plain line") =
      ⟨[], some { sender := "A", message := "hello\njust a plain line", date := "1/1/24",
                  time := "10:00", is_you := false }⟩
    ∧ processLine ("~") ⟨[], none⟩ ("just a plain line") = ⟨[], none⟩ := by
  have h1 := claim_C5 ("~")
    ⟨[], some { sender := "A", message := "hello", date := "1/1/24", time := "10:00",
                is_you := false }⟩
    ("just a plain line") (by decide) (by decide)
  have h2 := claim_C5 ("~") ⟨[], none⟩ ("just a plain line") (by decide) (by decide)
  refine ⟨?_, h2⟩
  rw [h1]
  decide

/-- C6: when the similarity query scoped to the contact returns no
rows and the contact is not the global fallback identifier, retrieval
repeats the query scoped to the fallback identifier and returns its
rows, so the result equals a direct query of the global identifier
with the same message and top-k. -/
theorem claim_C6 {E : Type} (embed_text : String → E)
    (rpc : E → String → Nat → Except String (List StyleExample))
    (contact_id message : String) (top_k : Nat)
    (hempty : rpc (embed_text message) contact_id top_k = Except.ok [])
    (hne : contact_id ≠ "global") :
    search_style_examples false embed_text rpc contact_id message top_k =
      (match rpc (embed_text message) "global" top_k with
        | .ok result2 => result2
        | .error _ => [])
    ∧ search_style_examples false embed_text rpc contact_id message top_k =
      search_style_examples false embed_text rpc "global" message top_k := by
  have hbne : (contact_id != "global") = true := bne_iff_ne.mpr hne
  cases hg : rpc (embed_text message) "global" top_k with
  | ok v =>
    cases v with
    | nil => simp [search_style_examples, hempty, hbne, hg]
    | cons a tl => simp [search_style_examples, hempty, hbne, hg]
  | error e => simp [search_style_examples, hempty, hbne, hg]

/-- C6 witness: a contact with no stored rows falls back to the global
rows. -/
theorem claim_C6_witness :
    search_style_examples false (fun _ : String => (0 : Nat))
        (fun _ c _ => if c = "global" then Except.ok [{ trigger_text := "t", reply_text := "r" }]
          else Except.ok [])
        ("c1") ("hey") 8 =
      search_style_examples false (fun _ : String => (0 : Nat))
        (fun _ c _ => if c = "global" then Except.ok [{ trigger_text := "t", reply_text := "r" }]
          else Except.ok [])
        ("global") ("hey") 8 :=
  (claim_C6 (fun _ : String => (0 : Nat))
      (fun _ c _ => if c = "global" then Except.ok [{ trigger_text := "t", reply_text := "r" }]
        else Except.ok [])
      ("c1") ("hey") 8 rfl (by decide)).2

/-- C7: a raised provider error during retrieval — in the scoped query
or in the fallback query — or during the history fetch is swallowed,
the function returning an empty list instead of propagating it. -/
theorem claim_C7 {E : Type} (embed_text : String → E)
    (rpc : E → String → Nat → Except String (List StyleExample))
    (fetch : String → Nat → Except String (List HistRow))
    (contact_id message : String) (top_k limit : Nat) (e : String) :
    (rpc (embed_text message) contact_id top_k = Except.error e →
      search_style_examples false embed_text rpc contact_id message top_k = [])
    ∧ (rpc (embed_text message) contact_id top_k = Except.ok [] → contact_id ≠ "global" →
      rpc (embed_text message) "global" top_k = Except.error e →
      search_style_examples false embed_text rpc contact_id message top_k = [])
    ∧ (fetch contact_id limit = Except.error e →
      get_conversation_history fetch contact_id limit = []) := by
  refine ⟨?_, ?_, ?_⟩
  · intro h
    simp [search_style_examples, h]
  · intro h1 h2 h3
    simp [search_style_examples, h1, bne_iff_ne.mpr h2, h3]
  · intro h
    simp [get_conversation_history, h]

/-- C7 witness: concrete failing providers for each of the three error
paths. -/
theorem claim_C7_witness :
    search_style_examples false (fun _ : String => (0 : Nat))
        (fun _ _ _ => Except.error "boom") ("c1") ("hey") 8 = []
    ∧ search_style_examples false (fun _ : String => (0 : Nat))
        (fun _ c _ => if c = "global" then Except.error "boom" else Except.ok [])
        ("c1") ("hey") 8 = []
    ∧ get_conversation_history (fun _ _ => Except.error "down") ("c1") 10 = [] :=
  ⟨(claim_C7 (fun _ : String => (0 : Nat)) (fun _ _ _ => Except.error "boom")
      (fun _ _ => Except.error "down") ("c1") ("hey") 8 10 "boom").1 rfl,
   (claim_C7 (fun _ : String => (0 : Nat))
      (fun _ c _ => if c = "global" then Except.error "boom" else Except.ok [])
      (fun _ _ => Except.error "down") ("c1") ("hey") 8 10 "boom").2.1 rfl (by decide) rfl,
   (claim_C7 (fun _ : String => (0 : Nat)) (fun _ _ _ => Except.error "boom")
      (fun _ _ => Except.error "down") ("c1") ("hey") 8 10 "down").2.2 rfl⟩

/-- C8: the built prompt is the persona segment, then the few-shot
block exactly when style examples exist, then one segment per history
entry in the given order with its stored role, then the new message
under the user role, last; and the history function delivers the
fetched newest-first rows reversed, hence in chronological order. -/
theorem claim_C8 (contact_name new_message : String) (style_examples : List StyleExample)
    (conversation_history : List HistRow) :
    (build_prompt contact_name style_examples conversation_history new_message).take
        (if style_examples.isEmpty then 1 else 2) =
      [{ role := "system", content := SYSTEM_PROMPT }] ++
        (if style_examples.isEmpty then []
          else [{ role := "system", content := examples_text style_examples }])
    ∧ (build_prompt contact_name style_examples conversation_history new_message).drop
        (if style_examples.isEmpty then 1 else 2) =
      conversation_history.map (fun msg => { role := msg.role, content := msg.message : PromptMsg })
        ++ [{ role := "user", content := new_message }]
    ∧ (build_prompt contact_name style_examples conversation_history new_message).getLast? =
      some { role := "user", content := new_message }
    ∧ ∀ (fetch : String → Nat → Except String (List HistRow)) (cid : String) (limit : Nat)
        (rows : List HistRow), fetch cid limit = Except.ok rows →
        get_conversation_history fetch cid limit = rows.reverse := by
  refine ⟨?_, ?_, ?_, ?_⟩
  · cases style_examples with
    | nil => simp [build_prompt]
    | cons a tl => simp [build_prompt]
  · cases style_examples with
    | nil => simp [build_prompt]
    | cons a tl => simp [build_prompt]
  · cases style_examples with
    | nil =>
      simp [build_prompt]
      rw [← List.cons_append, List.getLast?_concat]
    | cons a tl =>
      simp [build_prompt]
      rw [← List.cons_append, List.getLast?_concat]
  · intro fetch cid limit rows h
    simp [get_conversation_history, h]

/-- C8 witness: the reversal conjunct applied at a concrete history
fetch returning two rows newest-first, and the structure conjuncts at
a concrete prompt. -/
theorem claim_C8_witness :
    get_conversation_history
        (fun _ _ => Except.ok
          [{ role := "user", message := "newest", created_at := "t2" },
           { role := "assistant", message := "oldest", created_at := "t1" }])
        ("c1") 10 =
      [{ role := "assistant", message := "oldest", created_at := "t1" },
       { role := "user", message := "newest", created_at := "t2" }]
    ∧ (build_prompt ("Alice") [] [] ("hi")).getLast? =
      some { role := "user", content := "hi" } := by
  constructor
  · have h := (claim_C8 ("Alice") ("hi") [] []).2.2.2
      (fun _ _ => Except.ok
        [{ role := "user", message := "newest", created_at := "t2" },
         { role := "assistant", message := "oldest", created_at := "t1" }])
      ("c1") 10
      [{ role := "user", message := "newest", created_at := "t2" },
       { role := "assistant", message := "oldest", created_at := "t1" }] rfl
    rw [h]
    rfl
  · exact (claim_C8 ("Alice") ("hi") [] []).2.2.1

/-- Strip is the identity on a character list that neither starts nor
ends with whitespace. -/
theorem stripChars_cons_concat (a b : Char) (l : List Char)
    (ha : isPySpace a = false) (hb : isPySpace b = false) :
    stripChars (a :: (l ++ [b])) = a :: (l ++ [b]) := by
  simp only [stripChars, List.dropWhile_cons, ha, Bool.false_eq_true, if_false]
  rw [show (a :: (l ++ [b])).reverse = b :: (l.reverse ++ [a]) by simp]
  simp only [List.dropWhile_cons, hb, Bool.false_eq_true, if_false]
  simp

/-- C9 counterexample: the output of the post-processor is not always
trimmed — quote stripping exposes the whitespace that sat inside the
quotes and no re-trim follows it. -/
theorem claim_C9_counterexample :
    clean_reply ("\" hi \"") = " hi "
    ∧ pyStrip (clean_reply ("\" hi \"")) ≠ clean_reply ("\" hi \"") := by
  constructor <;> decide

/-- A list is a prefix of itself followed by anything. -/
theorem isPrefixOf_append_self (p t : List Char) : p.isPrefixOf (p ++ t) = true := by
  rw [List.isPrefixOf_iff_prefix]
  exact List.prefix_append _ _

/-- A list whose truncation to the length of a second list is not a
prefix of it — the mismatch sits inside the second list — is not a
prefix of any extension of that second list either. -/
theorem isPrefixOf_append_of_ne (p a t : List Char)
    (h : (p.take a.length).isPrefixOf a = false) :
    p.isPrefixOf (a ++ t) = false := by
  induction p generalizing a with
  | nil => simp [List.isPrefixOf] at h
  | cons x ps ih =>
    cases a with
    | nil => simp [List.take, List.isPrefixOf] at h
    | cons y as =>
      simp only [List.length_cons, List.take_succ_cons, List.isPrefixOf,
        List.cons_append] at h ⊢
      cases hxy : (x == y) with
      | false => simp [hxy]
      | true =>
        simp only [hxy, Bool.true_and] at h ⊢
        exact ih as h

/-- One rejecting step of the label loop: a label that is not a prefix
of the current text leaves it unchanged. -/
theorem foldl_labelStep_skip (acc p : String) (rest : List String)
    (h : p.data.isPrefixOf acc.data = false) :
    List.foldl
        (fun acc p => if p.data.isPrefixOf acc.data then pyStrip ⟨acc.data.drop p.data.length⟩ else acc)
        acc (p :: rest) =
      List.foldl
        (fun acc p => if p.data.isPrefixOf acc.data then pyStrip ⟨acc.data.drop p.data.length⟩ else acc)
        acc rest := by
  rw [List.foldl_cons, if_neg (by simp [h])]

/-- One accepting step of the label loop: a label that is a prefix of
the current text is dropped and the remainder re-stripped. -/
theorem foldl_labelStep_take (acc p : String) (rest : List String)
    (h : p.data.isPrefixOf acc.data = true) :
    List.foldl
        (fun acc p => if p.data.isPrefixOf acc.data then pyStrip ⟨acc.data.drop p.data.length⟩ else acc)
        acc (p :: rest) =
      List.foldl
        (fun acc p => if p.data.isPrefixOf acc.data then pyStrip ⟨acc.data.drop p.data.length⟩ else acc)
        (pyStrip ⟨acc.data.drop p.data.length⟩) rest := by
  rw [List.foldl_cons, if_pos h]

/-- C9 (amended): the post-processor strips a fully wrapping matching
pair of double quotes and a fully wrapping matching pair of single
quotes, each without re-trimming; removes a leading label — any of
the four in the fixed set — followed by a re-trim; and returns the
remainder.  The general parts cover both quote characters and every
label, and the concrete parts exercise each branch. -/
theorem claim_C9 :
    (∀ u : String,
      (startsWithChar u '\x27' = false ∨ endsWithChar u '\x27' = false) →
      (∀ p ∈ REPLY_LABELS, p.data.isPrefixOf u.data = false) →
      clean_reply ("\"" ++ u ++ "\"") = u)
    ∧ (∀ u : String,
      (∀ p ∈ REPLY_LABELS, p.data.isPrefixOf u.data = false) →
      clean_reply ("\x27" ++ u ++ "\x27") = u)
    ∧ (∀ L ∈ REPLY_LABELS, ∀ u : String,
      (∀ p ∈ REPLY_LABELS, p.data.isPrefixOf (pyStrip u).data = false) →
      stripLabels (L ++ u) = pyStrip u)
    ∧ clean_reply ("\"hello there\"") = "hello there"
    ∧ clean_reply ("\x27hello there\x27") = "hello there"
    ∧ clean_reply ("Reply: ok") = "ok"
    ∧ clean_reply ("Reply : ok") = "ok"
    ∧ clean_reply ("Response: ok") = "ok"
    ∧ clean_reply ("Message: ok") = "ok" := by
  refine ⟨?_, ?_, ?_, by decide, by decide, by decide, by decide, by decide, by decide⟩
  · intro u hq hlp
    have hdata : ("\"" ++ u ++ "\"").data = '"' :: (u.data ++ ['"']) := by
      rw [String.data_append, String.data_append]
      simp
    have hstrip : pyStrip ("\"" ++ u ++ "\"") = "\"" ++ u ++ "\"" := by
      simp only [pyStrip, hdata]
      rw [stripChars_cons_concat _ _ _ (by decide) (by decide), ← hdata]
    have hsw : startsWithChar ("\"" ++ u ++ "\"") '"' = true := by
      simp only [startsWithChar, hdata]
      rfl
    have hew : endsWithChar ("\"" ++ u ++ "\"") '"' = true := by
      rw [endsWithChar, hdata, ← List.cons_append, List.getLast?_concat]
      rfl
    have hdq : stripWrappingQuote '"' ("\"" ++ u ++ "\"") = u := by
      simp only [stripWrappingQuote, hsw, hew, Bool.and_self, if_true, hdata]
      simp
    have hq27 : (startsWithChar u '\x27' && endsWithChar u '\x27') = false := by
      rcases hq with h | h <;> simp [h]
    have hsq : stripWrappingQuote '\x27' u = u := by
      simp [stripWrappingQuote, hq27]
    have l1 := hlp ("Reply:") (by simp [REPLY_LABELS])
    have l2 := hlp ("Reply :") (by simp [REPLY_LABELS])
    have l3 := hlp ("Response:") (by simp [REPLY_LABELS])
    have l4 := hlp ("Message:") (by simp [REPLY_LABELS])
    have hlab : stripLabels u = u := by
      simp only [stripLabels, REPLY_LABELS, List.foldl]
      simp [l1, l2, l3, l4]
    rw [clean_reply, hstrip, hdq, hsq, hlab]
  · intro u hlp
    have hdata : ("\x27" ++ u ++ "\x27").data = '\x27' :: (u.data ++ ['\x27']) := by
      rw [String.data_append, String.data_append]
      simp
    have hstrip : pyStrip ("\x27" ++ u ++ "\x27") = "\x27" ++ u ++ "\x27" := by
      simp only [pyStrip, hdata]
      rw [stripChars_cons_concat _ _ _ (by decide) (by decide), ← hdata]
    have hnd : startsWithChar ("\x27" ++ u ++ "\x27") '"' = false := by
      simp only [startsWithChar, hdata]
      rfl
    have hdq : stripWrappingQuote '"' ("\x27" ++ u ++ "\x27") = "\x27" ++ u ++ "\x27" := by
      simp [stripWrappingQuote, hnd]
    have hsw : startsWithChar ("\x27" ++ u ++ "\x27") '\x27' = true := by
      simp only [startsWithChar, hdata]
      rfl
    have hew : endsWithChar ("\x27" ++ u ++ "\x27") '\x27' = true := by
      rw [endsWithChar, hdata, ← List.cons_append, List.getLast?_concat]
      rfl
    have hsq : stripWrappingQuote '\x27' ("\x27" ++ u ++ "\x27") = u := by
      simp only [stripWrappingQuote, hsw, hew, Bool.and_self, if_true, hdata]
      simp
    have l1 := hlp ("Reply:") (by simp [REPLY_LABELS])
    have l2 := hlp ("Reply :") (by simp [REPLY_LABELS])
    have l3 := hlp ("Response:") (by simp [REPLY_LABELS])
    have l4 := hlp ("Message:") (by simp [REPLY_LABELS])
    have hlab : stripLabels u = u := by
      simp only [stripLabels, REPLY_LABELS, List.foldl]
      simp [l1, l2, l3, l4]
    rw [clean_reply, hstrip, hdq, hsq, hlab]
  · intro L hL u h
    have l1 := h ("Reply:") (by simp [REPLY_LABELS])
    have l2 := h ("Reply :") (by simp [REPLY_LABELS])
    have l3 := h ("Response:") (by simp [REPLY_LABELS])
    have l4 := h ("Message:") (by simp [REPLY_LABELS])
    simp only [REPLY_LABELS, List.mem_cons, List.not_mem_nil, or_false] at hL
    rcases hL with rfl | rfl | rfl | rfl
    · have hp : ("Reply:").data.isPrefixOf (("Reply:" ++ u).data) = true := by
        rw [String.data_append]
        exact isPrefixOf_append_self _ _
      have hdrop : pyStrip ⟨(("Reply:" ++ u).data).drop (("Reply:").data.length)⟩ = pyStrip u := by
        rw [String.data_append, List.drop_left]
      simp only [stripLabels, REPLY_LABELS]
      rw [foldl_labelStep_take _ _ _ hp, hdrop,
        foldl_labelStep_skip _ _ _ l2, foldl_labelStep_skip _ _ _ l3,
        foldl_labelStep_skip _ _ _ l4, List.foldl_nil]
    · have hp1 : ("Reply:").data.isPrefixOf (("Reply :" ++ u).data) = false := by
        rw [String.data_append]
        exact isPrefixOf_append_of_ne _ _ _ (by decide)
      have hp2 : ("Reply :").data.isPrefixOf (("Reply :" ++ u).data) = true := by
        rw [String.data_append]
        exact isPrefixOf_append_self _ _
      have hdrop : pyStrip ⟨(("Reply :" ++ u).data).drop (("Reply :").data.length)⟩ = pyStrip u := by
        rw [String.data_append, List.drop_left]
      simp only [stripLabels, REPLY_LABELS]
      rw [foldl_labelStep_skip _ _ _ hp1, foldl_labelStep_take _ _ _ hp2, hdrop,
        foldl_labelStep_skip _ _ _ l3, foldl_labelStep_skip _ _ _ l4, List.foldl_nil]
    · have hp1 : ("Reply:").data.isPrefixOf (("Response:" ++ u).data) = false := by
        rw [String.data_append]
        exact isPrefixOf_append_of_ne _ _ _ (by decide)
      have hp2 : ("Reply :").data.isPrefixOf (("Response:" ++ u).data) = false := by
        rw [String.data_append]
        exact isPrefixOf_append_of_ne _ _ _ (by decide)
      have hp3 : ("Response:").data.isPrefixOf (("Response:" ++ u).data) = true := by
        rw [String.data_append]
        exact isPrefixOf_append_self _ _
      have hdrop : pyStrip ⟨(("Response:" ++ u).data).drop (("Response:").data.length)⟩ = pyStrip u := by
        rw [String.data_append, List.drop_left]
      simp only [stripLabels, REPLY_LABELS]
      rw [foldl_labelStep_skip _ _ _ hp1, foldl_labelStep_skip _ _ _ hp2,
        foldl_labelStep_take _ _ _ hp3, hdrop,
        foldl_labelStep_skip _ _ _ l4, List.foldl_nil]
    · have hp1 : ("Reply:").data.isPrefixOf (("Message:" ++ u).data) = false := by
        rw [String.data_append]
        exact isPrefixOf_append_of_ne _ _ _ (by decide)
      have hp2 : ("Reply :").data.isPrefixOf (("Message:" ++ u).data) = false := by
        rw [String.data_append]
        exact isPrefixOf_append_of_ne _ _ _ (by decide)
      have hp3 : ("Response:").data.isPrefixOf (("Message:" ++ u).data) = false := by
        rw [String.data_append]
        exact isPrefixOf_append_of_ne _ _ _ (by decide)
      have hp4 : ("Message:").data.isPrefixOf (("Message:" ++ u).data) = true := by
        rw [String.data_append]
        exact isPrefixOf_append_self _ _
      have hdrop : pyStrip ⟨(("Message:" ++ u).data).drop (("Message:").data.length)⟩ = pyStrip u := by
        rw [String.data_append, List.drop_left]
      simp only [stripLabels, REPLY_LABELS]
      rw [foldl_labelStep_skip _ _ _ hp1, foldl_labelStep_skip _ _ _ hp2,
        foldl_labelStep_skip _ _ _ hp3, foldl_labelStep_take _ _ _ hp4, hdrop,
        List.foldl_nil]

/-- C9 witness: the amended claim applied at concrete raw outputs,
covering both quote characters and a label other than the first. -/
theorem claim_C9_witness :
    clean_reply ("\"arre kya\"") = "arre kya"
    ∧ clean_reply ("\x27arre kya\x27") = "arre kya"
    ∧ stripLabels ("Message:" ++ " theek hai") = pyStrip (" theek hai") :=
  ⟨claim_C9.1 ("arre kya") (Or.inl (by decide)) (by decide),
   claim_C9.2.1 ("arre kya") (by decide),
   claim_C9.2.2.1 ("Message:") (by decide) (" theek hai") (by decide)⟩
